import Mathlib

/-!
Verification of the refund-calculation and refund-application logic of the
Order Item Breakdown page (`src/react_app_frontend/src/components/OrderItemBreakdown.jsx`).

Monetary values are modelled as rationals (`ℚ`).  JavaScript's `x || 0` idiom
on numbers is modelled by `jsOr`, where the only falsy rational is `0`
(`NaN`/`null`/`undefined` inputs are modelled separately where they can occur).
-/

namespace RefundSpec

/-- JavaScript `a || b` on numbers: `a` when truthy (nonzero), else `b`. -/
def jsOr (a b : ℚ) : ℚ := if a = 0 then b else a

/-- A fee record, from the mocked order items and the fee table
(`{ type, original, refundableDefault, maxRefund }`). -/
structure Fee where
  type : String
  original : ℚ
  refundableDefault : ℚ
  maxRefund : ℚ
deriving DecidableEq

/-- An order item record (`{ id, originalAmount, amount, refundedAmount, fees }`);
display-only fields (`title`, `metadata`) are omitted. -/
structure OrderItem where
  id : String
  originalAmount : ℚ
  amount : ℚ
  refundedAmount : ℚ
  fees : List Fee
deriving DecidableEq

/-- `maxRefundable` from `ConfirmRefundModal` (lines 165-170):
`base = Math.max(item.amount - item.refundedAmount, 0)`;
`feeCap = item.fees.reduce((acc, f) => acc + (f.maxRefund || 0), 0)`;
result `base + feeCap`. -/
def maxRefundable (item : OrderItem) : ℚ :=
  max (item.amount - item.refundedAmount) 0 +
    item.fees.foldl (fun acc f => acc + jsOr f.maxRefund 0) 0

/-- One entry of `payload.items[].feeRefunds` (`{ type, amount }`). -/
structure FeeRefund where
  type : String
  amount : ℚ
deriving DecidableEq

/-- One entry of `payload.items` (`{ id, amount, feeRefunds }`). -/
structure PayloadItem where
  id : String
  amount : ℚ
  feeRefunds : List FeeRefund
deriving DecidableEq

/-- `feeSum` inside `applyRefund` (line 433):
`(p.feeRefunds || []).reduce((a, b) => a + (Number(b.amount) || 0), 0)`. -/
def feeSum (p : PayloadItem) : ℚ :=
  p.feeRefunds.foldl (fun a b => a + jsOr b.amount 0) 0

/-- `totalRefund` inside `applyRefund` (line 434):
`(Number(p.amount) || 0) + feeSum`. -/
def totalRefund (p : PayloadItem) : ℚ := jsOr p.amount 0 + feeSum p

/-- The item update inside `applyRefund` (lines 435-439):
`refundedAmount: (upd[idx].refundedAmount || 0) + totalRefund`,
`amount: Math.max((upd[idx].amount || 0) - totalRefund, 0)`. -/
def updateItem (it : OrderItem) (t : ℚ) : OrderItem :=
  { it with
    refundedAmount := jsOr it.refundedAmount 0 + t
    amount := max (jsOr it.amount 0 - t) 0 }

/-- Processing of one payload item by `applyRefund` (lines 431-440):
`findIndex` locates the first item with matching id and that slot is replaced
by the updated item; when no item matches (`idx < 0`) nothing happens. -/
def applyToList (p : PayloadItem) : List OrderItem → List OrderItem
  | [] => []
  | it :: rest =>
    if it.id = p.id then updateItem it (totalRefund p) :: rest
    else it :: applyToList p rest

/-- `applyRefund` (lines 426-448), restricted to its data transformation:
`payload.items.forEach` over a copy of the item list. -/
def applyRefund (items : List OrderItem) (ps : List PayloadItem) : List OrderItem :=
  ps.foldl (fun acc p => applyToList p acc) items

/-- `totalRequestedRefund` from `ConfirmRefundModal` (lines 172-175):
`(Number(refundAmount) || 0) + Object.values(feeEdits).reduce((a, b) => a + (Number(b) || 0), 0)`.
Fee edits are modelled as an association list from fee type to amount. -/
def totalRequestedRefund (refundAmount : ℚ) (feeEdits : List (String × ℚ)) : ℚ :=
  jsOr refundAmount 0 + feeEdits.foldl (fun a b => a + jsOr b.2 0) 0

/-- The error taxonomy of the validation effect: `NonPositiveAmount` for the
message "Enter amount greater than $0.00", `ExceedsCap` for
"Exceeds refundable amount". -/
inductive ValidationError where
  | NonPositiveAmount
  | ExceedsCap
deriving DecidableEq

/-- Result of validating a candidate refund: an error, or the computed total
("customer receives") together with the partial-refund flag. -/
inductive ValidateResult where
  | err (e : ValidationError)
  | ok (total : ℚ) (partFlag : Bool)
deriving DecidableEq

/-- The synchronous validation of `ConfirmRefundModal`: the error effect
(lines 177-188) sets `NonPositiveAmount` when `totalRequestedRefund <= 0`,
`ExceedsCap` when `totalRequestedRefund > maxRefundable`, otherwise no error;
on no error the dialog shows `Customer receives: total` (line 265) and the
partial-refund note exactly when
`totalRequestedRefund < maxRefundable && totalRequestedRefund > 0` (lines 225-228). -/
def validate (item : OrderItem) (refundAmount : ℚ) (feeEdits : List (String × ℚ)) :
    ValidateResult :=
  let total := totalRequestedRefund refundAmount feeEdits
  if total ≤ 0 then .err .NonPositiveAmount
  else if maxRefundable item < total then .err .ExceedsCap
  else .ok total (decide (total < maxRefundable item) && decide (0 < total))

/-- Per-fee cap `Math.min(f.maxRefund || 0, f.original || 0)`
(lines 192 and 283). -/
def feeCap (f : Fee) : ℚ := min (jsOr f.maxRefund 0) (jsOr f.original 0)

/-- `handleFeeChange` (lines 190-198): the stored edit for a fee given the raw
input value, where `none` stands for an input whose `Number(...)` is `NaN`:
NaN or negative input stores `0`, otherwise `Math.min(v, cap)`. -/
def handleFeeChange (v : Option ℚ) (f : Fee) : ℚ :=
  match v with
  | none => 0
  | some x => if x < 0 then 0 else min x (feeCap f)

/-- Initial base refund amount when the dialog opens (line 156):
`setRefundAmount(item.amount - item.refundedAmount)`. -/
def initRefundAmount (item : OrderItem) : ℚ := item.amount - item.refundedAmount

/-- Initial editable refund for a fee when the dialog opens (line 159):
`Math.min(f.refundableDefault || 0, f.maxRefund || f.refundableDefault || 0)`. -/
def initFeeEdit (f : Fee) : ℚ :=
  min (jsOr f.refundableDefault 0) (jsOr f.maxRefund (jsOr f.refundableDefault 0))

/-- Mock item `itm_1` from `fetchOrderItemsMock` (lines 13-25), the item used by
the spec's round-trip scenarios. -/
def itm_1 : OrderItem :=
  { id := "itm_1"
    originalAmount := 75
    amount := 75
    refundedAmount := 0
    fees :=
      [ { type := "Processing fee", original := 2.5, refundableDefault := 0, maxRefund := 0 }
      , { type := "Convenience fee", original := 1, refundableDefault := 0, maxRefund := 0 }
      , { type := "Tax", original := 5.75, refundableDefault := 5.75, maxRefund := 5.75 } ] }

/-- The payload the dialog submits for `itm_1` with full base refund and the
full Tax fee refund: total `75 + 5.75 = 80.75`. -/
def refundPayload_1 : PayloadItem :=
  { id := "itm_1"
    amount := 75
    feeRefunds :=
      [ { type := "Processing fee", amount := 0 }
      , { type := "Convenience fee", amount := 0 }
      , { type := "Tax", amount := 5.75 } ] }

/-- The state of `itm_1` after `applyRefund` has processed `refundPayload_1`. -/
def itm_1_after : OrderItem :=
  { itm_1 with amount := 0, refundedAmount := 80.75 }

/-- A payload for `itm_1` refunding only part of the base amount. -/
def p50 : PayloadItem := { id := "itm_1", amount := 50, feeRefunds := [] }

/-- A payload whose id matches no mock item. -/
def strayPayload : PayloadItem := { id := "itm_999", amount := 10, feeRefunds := [] }

lemma jsOr_zero (a : ℚ) : jsOr a 0 = a := by
  unfold jsOr
  split <;> simp_all

lemma fees_fold_sum (l : List Fee) :
    ∀ acc : ℚ, l.foldl (fun acc f => acc + jsOr f.maxRefund 0) acc
      = acc + (l.map Fee.maxRefund).sum := by
  induction l with
  | nil => intro acc; simp
  | cons x xs ih =>
    intro acc
    rw [List.foldl_cons, ih, jsOr_zero]
    simp only [List.map_cons, List.sum_cons]
    ring

lemma feeRefunds_fold_sum (l : List FeeRefund) :
    ∀ acc : ℚ, l.foldl (fun a b => a + jsOr b.amount 0) acc
      = acc + (l.map FeeRefund.amount).sum := by
  induction l with
  | nil => intro acc; simp
  | cons x xs ih =>
    intro acc
    rw [List.foldl_cons, ih, jsOr_zero]
    simp only [List.map_cons, List.sum_cons]
    ring

lemma feeEdits_fold_sum (l : List (String × ℚ)) :
    ∀ acc : ℚ, l.foldl (fun a b => a + jsOr b.2 0) acc
      = acc + (l.map Prod.snd).sum := by
  induction l with
  | nil => intro acc; simp
  | cons x xs ih =>
    intro acc
    rw [List.foldl_cons, ih, jsOr_zero]
    simp only [List.map_cons, List.sum_cons]
    ring

lemma maxRefundable_nonneg (item : OrderItem) (h : ∀ f ∈ item.fees, 0 ≤ f.maxRefund) :
    0 ≤ maxRefundable item := by
  unfold maxRefundable
  rw [fees_fold_sum, zero_add]
  refine add_nonneg (le_max_right _ _) (List.sum_nonneg ?_)
  intro x hx
  rcases List.mem_map.mp hx with ⟨f, hf, rfl⟩
  exact h f hf

/-- C2: `maxRefundable` computes
`max(item.amount - item.refundedAmount, 0) + sum(fee.maxRefund)` for every item,
and on the spec's round-trip item (mock `itm_1`) it evaluates to `80.75`. -/
theorem maxRefundable_correct :
    (∀ item : OrderItem,
      maxRefundable item
        = max (item.amount - item.refundedAmount) 0 + (item.fees.map Fee.maxRefund).sum)
    ∧ maxRefundable itm_1 = 80.75 := by
  constructor
  · intro item
    unfold maxRefundable
    rw [fees_fold_sum, zero_add]
  · norm_num [maxRefundable, itm_1, jsOr, max_def]

/-- C1 counterexample: the mock item `itm_1` satisfies
`originalAmount == amount + refundedAmount`, but after `applyRefund` processes
the spec's round-trip payload (base `75` plus fee refund `5.75`, a successful
application whose total includes a fee-refund amount) the invariant is broken:
the result has `amount = 0` and `refundedAmount = 80.75`, so `originalAmount`
(`75`) is strictly below `amount + refundedAmount` (`80.75`). -/
theorem applyRefund_breaks_base_invariant :
    applyRefund [itm_1] [refundPayload_1] = [itm_1_after]
    ∧ itm_1.originalAmount = itm_1.amount + itm_1.refundedAmount
    ∧ itm_1_after.originalAmount < itm_1_after.amount + itm_1_after.refundedAmount := by
  refine ⟨?_, ?_, ?_⟩ <;>
    norm_num [applyRefund, applyToList, itm_1, refundPayload_1, itm_1_after,
      updateItem, totalRefund, feeSum, jsOr, max_def]

/-- C1 amended: `applyRefund` preserves the invariant
`originalAmount == amount + refundedAmount` exactly on applications whose total
refund does not exceed the item's current `amount`: if the invariant held
before and `totalRefund p ≤ it.amount`, every item produced by applying `p`
still satisfies it. -/
theorem applyRefund_invariant_when_within_amount :
    ∀ (it : OrderItem) (p : PayloadItem),
      it.originalAmount = it.amount + it.refundedAmount →
      totalRefund p ≤ it.amount →
      ∀ it' ∈ applyRefund [it] [p],
        it'.originalAmount = it'.amount + it'.refundedAmount := by
  intro it p hinv hle it' hmem
  simp only [applyRefund, List.foldl_cons, List.foldl_nil, applyToList] at hmem
  by_cases hid : it.id = p.id
  · rw [if_pos hid] at hmem
    rcases List.mem_singleton.mp hmem with rfl
    simp only [updateItem, jsOr_zero]
    rw [max_eq_left (by linarith)]
    linarith
  · rw [if_neg hid] at hmem
    rcases List.mem_singleton.mp hmem with rfl
    exact hinv

/-- Witness for the amended C1 at a concrete input: refunding `50` from
`itm_1` (which satisfies the invariant, and `50 ≤ 75`). -/
theorem applyRefund_invariant_when_within_amount_witness :
    (updateItem itm_1 (totalRefund p50)).originalAmount
      = (updateItem itm_1 (totalRefund p50)).amount
        + (updateItem itm_1 (totalRefund p50)).refundedAmount :=
  applyRefund_invariant_when_within_amount itm_1 p50
    (by norm_num [itm_1])
    (by norm_num [totalRefund, feeSum, p50, jsOr, itm_1])
    _ (by norm_num [applyRefund, applyToList, itm_1, p50])

/-- C5: `totalRefund` is the base amount plus the sum of the fee refunds; the
item matched by a payload entry is replaced by an item with `refundedAmount`
incremented by `totalRefund` and `amount` set to `max(amount - totalRefund, 0)`;
concretely, applying the `80.75` payload to `itm_1` (`amount = 75`,
`refundedAmount = 0`) yields `amount = 0` and `refundedAmount = 80.75`. -/
theorem applyRefund_updates_item :
    (∀ p : PayloadItem,
      totalRefund p = p.amount + (p.feeRefunds.map FeeRefund.amount).sum)
    ∧ (∀ (it : OrderItem) (p : PayloadItem) (rest : List OrderItem), it.id = p.id →
        applyToList p (it :: rest) = updateItem it (totalRefund p) :: rest)
    ∧ (∀ (it : OrderItem) (t : ℚ),
        (updateItem it t).refundedAmount = it.refundedAmount + t
        ∧ (updateItem it t).amount = max (it.amount - t) 0)
    ∧ applyRefund [itm_1] [refundPayload_1] = [itm_1_after]
    ∧ itm_1_after.amount = max (75 - 80.75 : ℚ) 0
    ∧ itm_1_after.refundedAmount = 80.75 := by
  refine ⟨?_, ?_, ?_, ?_, ?_, ?_⟩
  · intro p
    unfold totalRefund feeSum
    rw [feeRefunds_fold_sum, zero_add, jsOr_zero]
  · intro it p rest h
    simp [applyToList, h]
  · intro it t
    exact ⟨by simp [updateItem, jsOr_zero], by simp [updateItem, jsOr_zero]⟩
  · norm_num [applyRefund, applyToList, itm_1, refundPayload_1, itm_1_after,
      updateItem, totalRefund, feeSum, jsOr, max_def]
  · norm_num [itm_1_after, itm_1, max_def]
  · norm_num [itm_1_after, itm_1]

/-- Witness for C5's conditional part at a concrete input: the matched mock
item `itm_1` is replaced by its update under payload `refundPayload_1`. -/
theorem applyRefund_updates_item_witness :
    applyToList refundPayload_1 [itm_1]
      = [updateItem itm_1 (totalRefund refundPayload_1)] :=
  applyRefund_updates_item.2.1 itm_1 refundPayload_1 [] rfl

lemma applyToList_nomatch (p : PayloadItem) (items : List OrderItem) :
    (∀ it ∈ items, it.id ≠ p.id) → applyToList p items = items := by
  induction items with
  | nil => intro _; rfl
  | cons it rest ih =>
    intro h
    simp only [applyToList]
    rw [if_neg (h it (by simp)), ih (fun x hx => h x (by simp [hx]))]

lemma applyToList_getElem_frame (p : PayloadItem) :
    ∀ (items : List OrderItem) (i : ℕ) (it : OrderItem),
      items[i]? = some it → it.id ≠ p.id → (applyToList p items)[i]? = some it := by
  intro items
  induction items with
  | nil =>
    intro i it h _
    simp at h
  | cons hd rest ih =>
    intro i it hget hne
    cases i with
    | zero =>
      simp only [List.getElem?_cons_zero, Option.some.injEq] at hget
      subst hget
      simp only [applyToList]
      rw [if_neg hne]
      simp
    | succ n =>
      simp only [List.getElem?_cons_succ] at hget
      simp only [applyToList]
      by_cases hid : hd.id = p.id
      · rw [if_pos hid]
        simpa only [List.getElem?_cons_succ] using hget
      · rw [if_neg hid]
        simpa only [List.getElem?_cons_succ] using ih n it hget hne

lemma applyRefund_getElem_frame :
    ∀ (ps : List PayloadItem) (items : List OrderItem) (i : ℕ) (it : OrderItem),
      items[i]? = some it → (∀ p ∈ ps, it.id ≠ p.id) →
      (applyRefund items ps)[i]? = some it := by
  intro ps
  induction ps with
  | nil =>
    intro items i it h _
    simpa [applyRefund] using h
  | cons p ps ih =>
    intro items i it hget hall
    have h1 := applyToList_getElem_frame p items i it hget (hall p (by simp))
    show (applyRefund (applyToList p items) ps)[i]? = some it
    exact ih _ i it h1 (fun q hq => hall q (by simp [hq]))

/-- C6: a payload entry whose id matches no item is a no-op (for a single step,
and hence skipping it in a batch), and an item not referenced by any entry of
the batch sits unchanged at its original position of the output. -/
theorem applyRefund_frame :
    (∀ (p : PayloadItem) (items : List OrderItem),
      (∀ it ∈ items, it.id ≠ p.id) → applyToList p items = items)
    ∧ (∀ (items : List OrderItem) (p : PayloadItem) (ps : List PayloadItem),
      (∀ it ∈ items, it.id ≠ p.id) →
      applyRefund items (p :: ps) = applyRefund items ps)
    ∧ (∀ (items : List OrderItem) (ps : List PayloadItem) (i : ℕ) (it : OrderItem),
      items[i]? = some it → (∀ p ∈ ps, it.id ≠ p.id) →
      (applyRefund items ps)[i]? = some it) := by
  refine ⟨applyToList_nomatch, ?_, fun items ps => applyRefund_getElem_frame ps items⟩
  intro items p ps h
  show applyRefund (applyToList p items) ps = applyRefund items ps
  rw [applyToList_nomatch p items h]

/-- Witness for C6 at a concrete input: a payload targeting the unknown id
`itm_999` leaves the singleton collection `[itm_1]` unchanged. -/
theorem applyRefund_frame_witness :
    applyToList strayPayload [itm_1] = [itm_1] :=
  applyRefund_frame.1 strayPayload [itm_1]
    (by intro it hit; simp only [List.mem_singleton] at hit; subst hit; decide)

/-- C7: `applyRefund` is not idempotent: applying the same payload twice to a
matching item adds its total twice, leaving `refundedAmount` increased by
`2 * totalRefund` over the starting value. -/
theorem applyRefund_not_idempotent :
    ∀ (it : OrderItem) (p : PayloadItem), it.id = p.id → 0 < totalRefund p →
      ∀ it' ∈ applyRefund (applyRefund [it] [p]) [p],
        it'.refundedAmount = it.refundedAmount + 2 * totalRefund p := by
  intro it p hid _hpos it' hmem
  have h1 : applyRefund [it] [p] = [updateItem it (totalRefund p)] := by
    simp [applyRefund, applyToList, hid]
  have h2 : (updateItem it (totalRefund p)).id = p.id := hid
  rw [h1] at hmem
  simp only [applyRefund, List.foldl_cons, List.foldl_nil, applyToList, h2,
    if_true, List.mem_singleton] at hmem
  subst hmem
  simp only [updateItem, jsOr_zero]
  ring

/-- Witness for C7 at a concrete input: applying `refundPayload_1` twice to
`itm_1` yields `refundedAmount = 0 + 2 * 80.75`. -/
theorem applyRefund_not_idempotent_witness :
    (updateItem (updateItem itm_1 (totalRefund refundPayload_1))
        (totalRefund refundPayload_1)).refundedAmount
      = itm_1.refundedAmount + 2 * totalRefund refundPayload_1 :=
  applyRefund_not_idempotent itm_1 refundPayload_1 rfl
    (by norm_num [totalRefund, feeSum, refundPayload_1, jsOr])
    _ (by norm_num [applyRefund, applyToList, itm_1, refundPayload_1, updateItem,
          totalRefund, feeSum, jsOr, max_def])

lemma jsOr_of_ne {a : ℚ} (b : ℚ) (h : a ≠ 0) : jsOr a b = a := if_neg h

lemma jsOr_zero_left (b : ℚ) : jsOr 0 b = b := if_pos rfl

lemma validate_def (item : OrderItem) (ra : ℚ) (fe : List (String × ℚ)) :
    validate item ra fe =
      if totalRequestedRefund ra fe ≤ 0 then .err .NonPositiveAmount
      else if maxRefundable item < totalRequestedRefund ra fe then .err .ExceedsCap
      else .ok (totalRequestedRefund ra fe)
        (decide (totalRequestedRefund ra fe < maxRefundable item)
          && decide (0 < totalRequestedRefund ra fe)) := rfl

/-- C3: with the data-model constraint that every fee's `maxRefund` is
non-negative (spec §3), validation fails with `NonPositiveAmount` exactly when
the requested total is `≤ 0`, fails with `ExceedsCap` exactly when the total
exceeds `maxRefundable`, and on success reports the computed total together
with the partial flag `total < maxRefundable && total > 0`. -/
theorem validate_spec :
    ∀ (item : OrderItem) (ra : ℚ) (fe : List (String × ℚ)),
      (∀ f ∈ item.fees, 0 ≤ f.maxRefund) →
      (validate item ra fe = .err .NonPositiveAmount
        ↔ totalRequestedRefund ra fe ≤ 0)
      ∧ (validate item ra fe = .err .ExceedsCap
        ↔ maxRefundable item < totalRequestedRefund ra fe)
      ∧ (∀ (t : ℚ) (b : Bool), validate item ra fe = .ok t b →
          t = totalRequestedRefund ra fe
          ∧ (b = true ↔ (t < maxRefundable item ∧ 0 < t))) := by
  intro item ra fe hfees
  have hmr := maxRefundable_nonneg item hfees
  rw [validate_def]
  split_ifs with h1 h2
  · refine ⟨by simp [h1], ?_, by intro t b h; simp at h⟩
    constructor
    · intro h
      simp at h
    · intro h
      linarith
  · exact ⟨by simp [h1], by simp [h2], by intro t b h; simp at h⟩
  · refine ⟨by simp [h1], by simp [h2], ?_⟩
    intro t b hok
    simp only [ValidateResult.ok.injEq] at hok
    obtain ⟨h3, h4⟩ := hok
    subst h3
    subst h4
    constructor
    · rfl
    · simp [Bool.and_eq_true, decide_eq_true_iff]

/-- Witness for C3 at a concrete input: the spec's round-trip request
(base `75`, Tax fee `5.75`) on `itm_1` succeeds with total `80.75` and is not
partial. -/
theorem validate_spec_witness :
    (80.75 : ℚ) = totalRequestedRefund 75 [("Tax", (5.75:ℚ))]
    ∧ (false = true ↔ ((80.75:ℚ) < maxRefundable itm_1 ∧ (0:ℚ) < 80.75)) :=
  (validate_spec itm_1 75 [("Tax", (5.75:ℚ))]
      (by rintro f hf; simp [itm_1] at hf; rcases hf with rfl | rfl | rfl <;> norm_num)).2.2
    80.75 false
    (by norm_num [validate, totalRequestedRefund, maxRefundable, itm_1, jsOr, max_def])

/-- The "Processing fee" of `itm_1`: `original = 2.5`, `maxRefund = 0`, so its
per-fee cap is `min(0, 2.5) = 0`. -/
def procFee : Fee :=
  { type := "Processing fee", original := 2.5, refundableDefault := 0, maxRefund := 0 }

/-- C4 counterexample: a request whose "Processing fee" entry is `2`, far above
that fee's cap `min(maxRefund, original) = 0`, nevertheless passes the final
validation of the dialog (it only checks the aggregate total against
`maxRefundable`), succeeding with total `2`; so the final validate step does
not reject per-fee cap violations introduced by bypassing the live clamping. -/
theorem perFee_cap_not_revalidated :
    feeCap procFee < 2
    ∧ validate itm_1 0 [("Processing fee", (2:ℚ))] = .ok 2 true := by
  constructor
  · norm_num [feeCap, procFee, jsOr, min_def]
  · norm_num [validate, totalRequestedRefund, maxRefundable, itm_1, jsOr, max_def]

/-- C4 amended: the per-fee cap `min(fee.maxRefund, fee.original)` is enforced
only by the live input clamping `handleFeeChange`, which stores a value in
`[0, cap]` for every input (NaN and negative inputs store `0`); the final
validation re-checks only the aggregate total, not the per-fee caps. -/
theorem handleFeeChange_clamps :
    ∀ (v : Option ℚ) (f : Fee), 0 ≤ f.original → 0 ≤ f.maxRefund →
      0 ≤ handleFeeChange v f ∧ handleFeeChange v f ≤ feeCap f := by
  intro v f ho hm
  have hcap : 0 ≤ feeCap f := by
    unfold feeCap
    rw [jsOr_zero, jsOr_zero]
    exact le_min hm ho
  cases v with
  | none => exact ⟨le_refl 0, hcap⟩
  | some x =>
    simp only [handleFeeChange]
    split_ifs with hx
    · exact ⟨le_refl 0, hcap⟩
    · push_neg at hx
      exact ⟨le_min hx hcap, min_le_right _ _⟩

/-- Witness for the amended C4 at a concrete input: an input of `3` on the
zero-cap "Processing fee" is clamped into `[0, 0]`. -/
theorem handleFeeChange_clamps_witness :
    0 ≤ handleFeeChange (some 3) procFee
    ∧ handleFeeChange (some 3) procFee ≤ feeCap procFee :=
  handleFeeChange_clamps (some 3) procFee (by norm_num [procFee]) (by norm_num [procFee])

/-- C9: when the dialog opens, the base refund amount is initialised to
`item.amount - item.refundedAmount` with no clamping (negative exactly when
`refundedAmount > amount`); a fee's initial editable refund is
`min(refundableDefault, maxRefund)` when `maxRefund > 0` but equals
`refundableDefault` when `maxRefund = 0` (the `maxRefund || refundableDefault`
fallback), exceeding the per-fee cap whenever `maxRefund = 0 <
refundableDefault`. -/
theorem dialog_initial_values :
    ∀ (item : OrderItem) (f : Fee),
      initRefundAmount item = item.amount - item.refundedAmount
      ∧ (initRefundAmount item < 0 ↔ item.amount < item.refundedAmount)
      ∧ (0 < f.maxRefund → initFeeEdit f = min f.refundableDefault f.maxRefund)
      ∧ (f.maxRefund = 0 → initFeeEdit f = f.refundableDefault)
      ∧ (f.maxRefund = 0 → 0 < f.refundableDefault → feeCap f < initFeeEdit f) := by
  intro item f
  have hzero : ∀ h0 : f.maxRefund = 0, initFeeEdit f = f.refundableDefault := by
    intro h0
    unfold initFeeEdit
    rw [h0, jsOr_zero, jsOr_zero_left, min_self]
  refine ⟨rfl, ?_, ?_, hzero, ?_⟩
  · unfold initRefundAmount
    constructor <;> intro h <;> linarith
  · intro h
    unfold initFeeEdit
    rw [jsOr_zero, jsOr_of_ne _ h.ne']
  · intro h0 hd
    have h5 : feeCap f ≤ 0 := by
      unfold feeCap
      rw [h0, jsOr_zero, jsOr_zero]
      exact min_le_left _ _
    rw [hzero h0]
    linarith

/-- A fee with `maxRefund = 0` but a positive `refundableDefault`, exhibiting
the fallback of the initial fee edit past the per-fee cap. -/
def zeroCapFee : Fee :=
  { type := "Fee", original := 5, refundableDefault := 3, maxRefund := 0 }

/-- Witness for C9 at a concrete input: for `zeroCapFee` the initial editable
refund (`3`) exceeds the per-fee cap (`0`). -/
theorem dialog_initial_values_witness :
    feeCap zeroCapFee < initFeeEdit zeroCapFee :=
  (dialog_initial_values itm_1 zeroCapFee).2.2.2.2 rfl (by norm_num [zeroCapFee])

/-- The dialog-local state relevant to submission: the current validation
error message (`""` when none, line 151), the `submitting` flag (line 150),
and — for stating the single-in-flight property — the number of submissions
issued to the external service and not yet resolved. -/
structure DialogState where
  error : String
  submitting : Bool
  inFlight : ℕ
deriving DecidableEq

/-- Events of the confirmation dialog: a synchronous re-validation (the effect
of lines 177-188, recording the new error message), a click on Confirm
(`handleConfirm`, lines 200-221), and the resolution of an issued submission
(the code after `await issueRefundMock`, lines 214-220). -/
inductive DialogEvent where
  | edit (msg : String)
  | confirm
  | resolve (ok : Bool)
deriving DecidableEq

/-- Dialog state when it opens (lines 148-151, 162). -/
def initDialog : DialogState := { error := "", submitting := false, inFlight := 0 }

/-- One step of the dialog, returning the next state and whether a submission
was issued to the external refund service.  `confirm` is the guard
`if (error || submitting) return;` of `handleConfirm` followed by
`setSubmitting(true)` and the `issueRefundMock` call; `resolve` is
`setSubmitting(false)` plus the failure message on a failed response. -/
def dialogStep (s : DialogState) : DialogEvent → DialogState × Bool
  | .edit msg => ({ s with error := msg }, false)
  | .confirm =>
    if s.error ≠ "" ∨ s.submitting = true then (s, false)
    else ({ s with submitting := true, inFlight := s.inFlight + 1 }, true)
  | .resolve ok =>
    if s.inFlight = 0 then (s, false)
    else ({ s with
            submitting := false
            inFlight := s.inFlight - 1
            error := if ok then s.error
                     else "Failed to issue refund. Please try again." }, false)

/-- The dialog state after a sequence of events from the initial state. -/
def runDialog (evs : List DialogEvent) : DialogState :=
  evs.foldl (fun s e => (dialogStep s e).1) initDialog

/-- Invariant tying the submission counter to the `submitting` flag. -/
def DialogInv (s : DialogState) : Prop :=
  s.inFlight = if s.submitting then 1 else 0

lemma dialogStep_inv {s : DialogState} (e : DialogEvent) (h : DialogInv s) :
    DialogInv (dialogStep s e).1 := by
  cases e with
  | edit msg => exact h
  | confirm =>
    by_cases hc : s.error ≠ "" ∨ s.submitting = true
    · simp only [dialogStep, if_pos hc]
      exact h
    · simp only [dialogStep, if_neg hc]
      push_neg at hc
      have hf : s.submitting = false := by simpa using hc.2
      unfold DialogInv at h ⊢
      rw [hf] at h
      simp only [Bool.false_eq_true, if_false] at h
      simp [h]
  | resolve ok =>
    by_cases h0 : s.inFlight = 0
    · simp only [dialogStep, if_pos h0]
      exact h
    · simp only [dialogStep, if_neg h0]
      unfold DialogInv at h ⊢
      simp only
      cases hsub : s.submitting <;> rw [hsub] at h <;> simp_all

lemma runDialog_inv (evs : List DialogEvent) : DialogInv (runDialog evs) := by
  unfold runDialog
  have haux : ∀ (l : List DialogEvent) (s : DialogState), DialogInv s →
      DialogInv (l.foldl (fun s e => (dialogStep s e).1) s) := by
    intro l
    induction l with
    | nil => intro s h; exact h
    | cons e es ih => intro s h; exact ih _ (dialogStep_inv e h)
  exact haux evs initDialog rfl

/-- C8: along every event sequence of the dialog at most one submission is
in flight; the confirm action is a no-op (state unchanged, nothing issued)
whenever a validation error is present or a submission is already pending;
and a submission can only be issued from a state with no validation error and
no pending submission — so no validation error ever reaches the external
service. -/
theorem confirm_guarded :
    ∀ evs : List DialogEvent,
      (runDialog evs).inFlight ≤ 1
      ∧ (∀ s : DialogState, s.error ≠ "" ∨ s.submitting = true →
          dialogStep s .confirm = (s, false))
      ∧ (∀ s : DialogState, (dialogStep s .confirm).2 = true →
          s.error = "" ∧ s.submitting = false) := by
  intro evs
  refine ⟨?_, ?_, ?_⟩
  · have h := runDialog_inv evs
    unfold DialogInv at h
    rw [h]
    split <;> omega
  · intro s h
    simp only [dialogStep, if_pos h]
  · intro s h
    by_cases hc : s.error ≠ "" ∨ s.submitting = true
    · rw [show dialogStep s .confirm = (s, false) from by simp only [dialogStep, if_pos hc]] at h
      simp at h
    · push_neg at hc
      exact ⟨hc.1, Bool.not_eq_true _ |>.mp hc.2⟩

/-- Witness for C8 at a concrete input: from a state carrying the
"Exceeds refundable amount" error, confirm changes nothing and issues no
submission. -/
theorem confirm_guarded_witness :
    dialogStep { error := "Exceeds refundable amount", submitting := false, inFlight := 0 }
        .confirm
      = ({ error := "Exceeds refundable amount", submitting := false, inFlight := 0 }, false) :=
  (confirm_guarded []).2.1 _ (Or.inl (by decide))

/-- An input to `currency`: a number, `NaN`, or a nullish value
(`null`/`undefined`). -/
inductive JSNum where
  | num (q : ℚ)
  | nan
  | nullish
deriving DecidableEq

/-- `Number(n || 0)` (lines 67 and 69): falsy inputs (`0`, `NaN`, nullish)
become `0`, any other number passes through. -/
def jsCoerce : JSNum → ℚ
  | .num q => jsOr q 0
  | .nan => 0
  | .nullish => 0

/-- The magnitude of `q` in hundredths, rounded half-up —
the digit source of `toFixed(2)`. -/
def fixedPart (q : ℚ) : ℕ := ⌊|q| * 100 + 1/2⌋₊

/-- `Number.prototype.toFixed(2)` on exact rationals: optional sign, integer
part, and exactly two fractional digits. -/
def toFixed2 (q : ℚ) : String :=
  (if q < 0 then "-" else "") ++ toString (fixedPart q / 100) ++ "." ++
    String.singleton (Nat.digitChar (fixedPart q % 100 / 10)) ++
    String.singleton (Nat.digitChar (fixedPart q % 100 % 10))

/-- `currency` (lines 63-71).  The `Intl.NumberFormat` formatter is the
external locale facility (spec §6), modelled as a parameter that may be
unavailable; the `try`/`catch` falls back to `` `$${Number(n || 0).toFixed(2)}` ``. -/
def currency (fmt : ℚ → Option String) (v : JSNum) : String :=
  match fmt (jsCoerce v) with
  | some s => s
  | none => "$" ++ toFixed2 (jsCoerce v)

lemma toFixed2_decomp (q : ℚ) :
    ∃ pre fr, toFixed2 q = pre ++ "." ++ fr ∧ fr.length = 2 := by
  refine ⟨(if q < 0 then "-" else "") ++ toString (fixedPart q / 100),
    String.singleton (Nat.digitChar (fixedPart q % 100 / 10)) ++
      String.singleton (Nat.digitChar (fixedPart q % 100 % 10)), ?_, rfl⟩
  unfold toFixed2
  rw [String.append_assoc]

/-- C10: `currency` renders through the locale formatter applied to the
coerced value when that formatter is available; when it is unavailable it
falls back to `"$"` followed by a fixed-point rendering with exactly two
digits after the decimal point; and `NaN` or nullish inputs are coerced to
`0` on both paths, formatting exactly as the number `0` does. -/
theorem currency_spec :
    ∀ (fmt : ℚ → Option String) (v : JSNum),
      (∀ s, fmt (jsCoerce v) = some s → currency fmt v = s)
      ∧ (fmt (jsCoerce v) = none → currency fmt v = "$" ++ toFixed2 (jsCoerce v))
      ∧ (∃ pre fr, toFixed2 (jsCoerce v) = pre ++ "." ++ fr ∧ fr.length = 2)
      ∧ jsCoerce .nan = 0 ∧ jsCoerce .nullish = 0
      ∧ currency fmt .nan = currency fmt (.num 0)
      ∧ currency fmt .nullish = currency fmt (.num 0) := by
  intro fmt v
  have hnum0 : jsCoerce (.num 0) = (0 : ℚ) := jsOr_zero_left 0
  refine ⟨?_, ?_, toFixed2_decomp _, rfl, rfl, ?_, ?_⟩
  · intro s h
    unfold currency
    rw [h]
  · intro h
    unfold currency
    rw [h]
  · unfold currency
    rw [show jsCoerce JSNum.nan = jsCoerce (.num 0) from hnum0.symm]
  · unfold currency
    rw [show jsCoerce JSNum.nullish = jsCoerce (.num 0) from hnum0.symm]

/-- Witness for C10 at concrete inputs: with the locale formatter unavailable,
`1.57` renders as `$1.57`; with a formatter present, its output is returned. -/
theorem currency_spec_witness :
    currency (fun _ => none) (JSNum.num 1.57) = "$" ++ toFixed2 (jsCoerce (JSNum.num 1.57))
    ∧ currency (fun _ => some "US$1.57") (JSNum.num 1.57) = "US$1.57"
    ∧ toFixed2 (jsCoerce (JSNum.num 1.57)) = "1.57" := by
  refine ⟨(currency_spec (fun _ => none) (JSNum.num 1.57)).2.1 rfl,
    (currency_spec (fun _ => some "US$1.57") (JSNum.num 1.57)).1 "US$1.57" rfl, ?_⟩
  have hq : jsCoerce (JSNum.num 1.57) = (1.57 : ℚ) := by
    norm_num [jsCoerce, jsOr]
  have hf : fixedPart (1.57 : ℚ) = 157 := by
    unfold fixedPart
    rw [Nat.floor_eq_iff (by positivity)]
    constructor <;> rw [abs_of_pos (by norm_num)] <;> norm_num
  rw [hq]
  unfold toFixed2
  rw [hf, if_neg (by norm_num)]
  decide

end RefundSpec
